import Mathlib

/-!
Verification of the PTC (programmatic tool calling) extension.

This file gives a shallow embedding of the repository's TypeScript core:
`utils.ts` (truncateOutput), `tool-wrapper.ts` (schemaToPythonType,
isOptional, extractNonNullSchema, generateToolWrapper's signature
construction), `rpc-protocol.ts` (handleMessage / handleToolCall and the
process event handlers), and `sandbox-manager.ts` (SubprocessSandbox,
DockerSandbox execution machines and the container lifecycle:
getOrCreateContainer, cleanupExpired, stopContainer, cleanup).

Machine-level JavaScript behaviour (promise settlement, timers, abort
listeners with once semantics) is modelled as explicit state passed
through small-step event functions; `JSON.parse` is modelled by an
executable JSON parser; fallible operations return `Except`.
-/

set_option maxRecDepth 10000

namespace Ptc

/-! ## Substring machinery (JavaScript `String.prototype.includes`) -/

/-- `occursIn p l` holds when the character list `p` appears as a
contiguous segment of `l` (the semantics of JS `includes`). -/
def occursIn (p : List Char) : List Char → Bool
  | [] => p.isEmpty
  | c :: rest => p.isPrefixOf (c :: rest) || occursIn p rest

/-- String version of `occursIn`. -/
def occursInS (p s : String) : Bool := occursIn p.data s.data

theorem occursIn_of_isPrefixOf {p l : List Char} (h : p.isPrefixOf l) :
    occursIn p l = true := by
  cases l with
  | nil =>
    have : p = [] := List.prefix_nil.mp (List.isPrefixOf_iff_prefix.mp h)
    simp [occursIn, this, List.isEmpty]
  | cons c rest => simp [occursIn, h]

/-- A prefix of an append is a prefix of the left part or extends it. -/
theorem prefix_append_split {α : Type} :
    ∀ {a : List α} {p b : List α}, p <+: a ++ b →
      p <+: a ∨ ∃ t, p = a ++ t ∧ t <+: b := by
  intro a
  induction a with
  | nil => intro p b h; exact Or.inr ⟨p, by simp, h⟩
  | cons c a' ih =>
    intro p b h
    cases p with
    | nil => exact Or.inl List.nil_prefix
    | cons d p' =>
      rw [List.cons_append, List.cons_prefix_cons] at h
      obtain ⟨rfl, h'⟩ := h
      rcases ih h' with hL | ⟨t, rfl, htb⟩
      · exact Or.inl (List.cons_prefix_cons.mpr ⟨rfl, hL⟩)
      · exact Or.inr ⟨t, by simp, htb⟩

theorem occursIn_append_right {p l : List Char} (x : List Char)
    (h : occursIn p l = true) : occursIn p (x ++ l) = true := by
  induction x with
  | nil => simpa using h
  | cons c cs ih => simp [occursIn, ih]

theorem occursIn_append_left {p a : List Char} (b : List Char)
    (h : occursIn p a = true) : occursIn p (a ++ b) = true := by
  induction a with
  | nil =>
    have : p = [] := by simpa [occursIn, List.isEmpty_iff] using h
    subst this
    cases b <;> simp [occursIn, List.isPrefixOf]
  | cons c cs ih =>
    rw [List.cons_append]
    rw [occursIn] at h ⊢
    rcases Bool.or_eq_true_iff.mp h with h1 | h2
    · have hpre : p <+: c :: cs := List.isPrefixOf_iff_prefix.mp h1
      have hp : p <+: c :: cs ++ b := hpre.trans (List.prefix_append _ _)
      rw [Bool.or_eq_true_iff]
      exact Or.inl (List.isPrefixOf_iff_prefix.mpr (by simpa using hp))
    · rw [Bool.or_eq_true_iff]
      exact Or.inr (ih h2)

/-- Any character of a pattern that occurs in a list is itself in the list. -/
theorem mem_of_occursIn {p l : List Char} (h : occursIn p l = true)
    {c : Char} (hc : c ∈ p) : c ∈ l := by
  induction l with
  | nil =>
    have : p = [] := by simpa [occursIn, List.isEmpty_iff] using h
    subst this; cases hc
  | cons d rest ih =>
    rw [occursIn] at h
    rcases Bool.or_eq_true_iff.mp h with h1 | h2
    · exact (List.isPrefixOf_iff_prefix.mp h1).subset hc
    · exact List.mem_cons_of_mem _ (ih h2)

/-- Decomposition of an occurrence in an append: the pattern occurs in the
left part, in the right part, or spans the boundary. -/
theorem occursIn_append_cases {p : List Char} :
    ∀ {a b : List Char}, occursIn p (a ++ b) = true →
      occursIn p a = true ∨ occursIn p b = true ∨
        ∃ s t, p = s ++ t ∧ s ≠ [] ∧ t ≠ [] ∧ s <:+ a ∧ t <+: b := by
  intro a
  induction a with
  | nil => intro b h; exact Or.inr (Or.inl (by simpa using h))
  | cons c cs ih =>
    intro b h
    rw [List.cons_append, occursIn] at h
    rcases Bool.or_eq_true_iff.mp h with h1 | h2
    · have hpre : p <+: (c :: cs) ++ b := by
        simpa using List.isPrefixOf_iff_prefix.mp h1
      rcases prefix_append_split hpre with hL | ⟨t, hpt, htb⟩
      · exact Or.inl (by
          rw [occursIn]
          simp [List.isPrefixOf_iff_prefix.mpr hL])
      · by_cases ht : t = []
        · subst ht
          refine Or.inl ?_
          rw [occursIn]
          have : p <+: c :: cs := by simp [hpt]
          simp [List.isPrefixOf_iff_prefix.mpr this]
        · exact Or.inr (Or.inr ⟨c :: cs, t, hpt, by simp, ht,
            List.suffix_refl _, htb⟩)
    · rcases ih h2 with hA | hB | ⟨s, t, hst, hs, ht, hsuf, hpre⟩
      · exact Or.inl (by rw [occursIn]; simp [hA])
      · exact Or.inr (Or.inl hB)
      · exact Or.inr (Or.inr ⟨s, t, hst, hs, ht, hsuf.trans (List.suffix_cons _ _), hpre⟩)

/-! ## utils.ts -/

/-- Maximum output size before truncation (100KB), from `utils.ts`. -/
def MAX_OUTPUT_SIZE : Nat := 100000

/-- JS `output.substring(0, n)`: the first `n` characters. -/
def substringTo (s : String) (n : Nat) : String := ⟨s.data.take n⟩

/-- `truncateOutput` from `utils.ts`: return the output unchanged when its
length is at most `MAX_OUTPUT_SIZE`, otherwise the first
`MAX_OUTPUT_SIZE` characters followed by the truncation notice built from
the original length. -/
def truncateOutput (output : String) : String :=
  if output.length ≤ MAX_OUTPUT_SIZE then output
  else
    substringTo output MAX_OUTPUT_SIZE ++
      ("\n\n[Output truncated - showing first " ++ toString MAX_OUTPUT_SIZE ++
        " characters of " ++ toString output.length ++ "]")

/-! ## JSON values and `JSON.parse`

`rpc-protocol.ts` classifies each stdout line by attempting
`JSON.parse(line)`.  We model JSON values and a strict parser with the
same acceptance behaviour (whole-line parse, standard JSON grammar).
Numbers are kept as their lexeme; the protocol never computes with them. -/

inductive JValue where
  | null
  | bool (b : Bool)
  | num (lexeme : String)
  | str (s : String)
  | arr (elems : List JValue)
  | obj (fields : List (String × JValue))
deriving Repr, Inhabited

/-- JSON whitespace skipping (space, tab, newline, carriage return). -/
def skipWs : List Char → List Char
  | c :: rest =>
    if c = ' ' ∨ c = '\t' ∨ c = '\n' ∨ c = '\r' then skipWs rest else c :: rest
  | [] => []

/-- Hexadecimal digit test for `\u` escapes. -/
def isHexDig (c : Char) : Bool :=
  c.isDigit || ('a' ≤ c ∧ c ≤ 'f') || ('A' ≤ c ∧ c ≤ 'F')

/-- Value of a hexadecimal digit. -/
def hexVal (c : Char) : Nat :=
  if c.isDigit then c.toNat - '0'.toNat
  else if 'a' ≤ c ∧ c ≤ 'f' then c.toNat - 'a'.toNat + 10
  else c.toNat - 'A'.toNat + 10

/-- Parse the body of a JSON string after the opening quote, returning the
decoded characters and the rest of the input.  Strict: control characters
must be escaped, and only JSON escapes are accepted. -/
def parseStringBody : List Char → Option (List Char × List Char)
  | [] => none
  | '"' :: rest => some ([], rest)
  | '\\' :: e :: rest =>
    match e with
    | '"' => (parseStringBody rest).map (fun r => ('"' :: r.1, r.2))
    | '\\' => (parseStringBody rest).map (fun r => ('\\' :: r.1, r.2))
    | '/' => (parseStringBody rest).map (fun r => ('/' :: r.1, r.2))
    | 'b' => (parseStringBody rest).map (fun r => ('\x08' :: r.1, r.2))
    | 'f' => (parseStringBody rest).map (fun r => ('\x0c' :: r.1, r.2))
    | 'n' => (parseStringBody rest).map (fun r => ('\n' :: r.1, r.2))
    | 'r' => (parseStringBody rest).map (fun r => ('\r' :: r.1, r.2))
    | 't' => (parseStringBody rest).map (fun r => ('\t' :: r.1, r.2))
    | 'u' =>
      match rest with
      | a :: b :: c :: d :: rest2 =>
        if isHexDig a ∧ isHexDig b ∧ isHexDig c ∧ isHexDig d then
          let n := 4096 * hexVal a + 256 * hexVal b + 16 * hexVal c + hexVal d
          (parseStringBody rest2).map (fun r => (Char.ofNat n :: r.1, r.2))
        else none
      | _ => none
    | _ => none
  | c :: rest =>
    if c.toNat < 32 then none
    else (parseStringBody rest).map (fun r => (c :: r.1, r.2))

/-- Scan the digits of a number lexeme. -/
def spanDigits : List Char → List Char × List Char
  | c :: rest =>
    if c.isDigit then
      let r := spanDigits rest
      (c :: r.1, r.2)
    else ([], c :: rest)
  | [] => ([], [])

/-- Parse the exponent part of a JSON number (may be absent). -/
def parseExpPart (acc : List Char) (cs : List Char) :
    Option (JValue × List Char) :=
  match cs with
  | e :: rest =>
    if e = 'e' ∨ e = 'E' then
      match rest with
      | s :: rest2 =>
        if s = '+' ∨ s = '-' then
          match spanDigits rest2 with
          | ([], _) => none
          | (ds, rest3) => some (.num ⟨acc ++ [e, s] ++ ds⟩, rest3)
        else
          match spanDigits rest with
          | ([], _) => none
          | (ds, rest3) => some (.num ⟨acc ++ [e] ++ ds⟩, rest3)
      | [] => none
    else some (.num ⟨acc⟩, cs)
  | [] => some (.num ⟨acc⟩, [])

/-- Parse the fraction and exponent parts of a JSON number. -/
def parseFracPart (acc : List Char) (cs : List Char) :
    Option (JValue × List Char) :=
  match cs with
  | '.' :: rest =>
    match spanDigits rest with
    | ([], _) => none
    | (ds, rest2) => parseExpPart (acc ++ ['.'] ++ ds) rest2
  | _ => parseExpPart acc cs

/-- Parse a JSON number (strict grammar: optional minus, no leading zeros,
optional fraction and exponent). -/
def parseNum (cs : List Char) : Option (JValue × List Char) :=
  let (sign, cs1) :=
    match cs with
    | '-' :: r => (['-'], r)
    | _ => (([] : List Char), cs)
  match cs1 with
  | '0' :: r =>
    if (r.head?.map Char.isDigit).getD false then none
    else parseFracPart (sign ++ ['0']) r
  | c :: _ =>
    if c.isDigit then
      match spanDigits cs1 with
      | (ds, rest) => parseFracPart (sign ++ ds) rest
    else none
  | [] => none

mutual

/-- Parse one JSON value (fuelled recursive descent). -/
def parseVal : Nat → List Char → Option (JValue × List Char)
  | 0, _ => none
  | fuel + 1, cs =>
    match skipWs cs with
    | [] => none
    | 'n' :: 'u' :: 'l' :: 'l' :: rest => some (.null, rest)
    | 't' :: 'r' :: 'u' :: 'e' :: rest => some (.bool true, rest)
    | 'f' :: 'a' :: 'l' :: 's' :: 'e' :: rest => some (.bool false, rest)
    | '"' :: rest => (parseStringBody rest).map (fun r => (.str ⟨r.1⟩, r.2))
    | '[' :: rest =>
      match skipWs rest with
      | ']' :: rest2 => some (.arr [], rest2)
      | cs2 => parseArrItems fuel [] cs2
    | '\x7b' :: rest =>
      match skipWs rest with
      | '\x7d' :: rest2 => some (.obj [], rest2)
      | cs2 => parseObjFields fuel [] cs2
    | cs1 => parseNum cs1

/-- Parse the remaining items of a non-empty JSON array. -/
def parseArrItems : Nat → List JValue → List Char → Option (JValue × List Char)
  | 0, _, _ => none
  | fuel + 1, acc, cs =>
    match parseVal fuel cs with
    | none => none
    | some (v, rest) =>
      match skipWs rest with
      | ',' :: rest2 => parseArrItems fuel (acc ++ [v]) rest2
      | ']' :: rest2 => some (.arr (acc ++ [v]), rest2)
      | _ => none

/-- Parse the remaining fields of a non-empty JSON object. -/
def parseObjFields : Nat → List (String × JValue) → List Char →
    Option (JValue × List Char)
  | 0, _, _ => none
  | fuel + 1, acc, cs =>
    match skipWs cs with
    | '"' :: rest =>
      match parseStringBody rest with
      | none => none
      | some (key, rest2) =>
        match skipWs rest2 with
        | ':' :: rest3 =>
          match parseVal fuel rest3 with
          | none => none
          | some (v, rest4) =>
            match skipWs rest4 with
            | ',' :: rest5 => parseObjFields fuel (acc ++ [(⟨key⟩, v)]) rest5
            | '\x7d' :: rest5 => some (.obj (acc ++ [(⟨key⟩, v)]), rest5)
            | _ => none
        | _ => none
    | _ => none

end

/-- `JSON.parse` model: the whole input must be one JSON value, optionally
surrounded by whitespace; anything else fails (throws in JS). -/
def jsonParse (s : String) : Option JValue :=
  match parseVal (s.length + 2) s.data with
  | some (v, rest) => if skipWs rest = [] then some v else none
  | none => none

/-- JS property access `v[key]` on a parsed JSON value: only objects have
fields; duplicate keys follow `JSON.parse` (the last occurrence wins). -/
def getField (v : JValue) (key : String) : Option JValue :=
  match v with
  | .obj fields => fields.foldl (fun acc f => if f.1 = key then some f.2 else acc) none
  | _ => none

/-- The `type` tag used by the `switch (msg.type)` dispatch: only a string
tag can match one of the string cases. -/
def getType (v : JValue) : Option String :=
  match getField v "type" with
  | some (.str s) => some s
  | _ => none

mutual

/-- JS string coercion of a parsed JSON value, as used by template
literals and string concatenation.  (Number formatting is approximated by
the lexeme; the protocol only coerces strings in practice.) -/
def jsToString : JValue → String
  | .null => "null"
  | .bool b => if b then "true" else "false"
  | .num lx => lx
  | .str s => s
  | .arr xs => String.intercalate "," (jsToStringList xs)
  | .obj _ => "[object Object]"

/-- Coerce each element of a list of JSON values to a string. -/
def jsToStringList : List JValue → List String
  | [] => []
  | v :: rest => jsToString v :: jsToStringList rest

end

/-- JS truthiness of a parsed JSON value. -/
def jsTruthy : JValue → Bool
  | .null => false
  | .bool b => b
  | .num lx =>
    let mantissa := lx.data.takeWhile (fun c => ¬ (c = 'e' ∨ c = 'E'))
    ¬ (mantissa.filter Char.isDigit).all (fun c => c = '0')
  | .str s => ¬ s = ""
  | .arr _ => true
  | .obj _ => true

/-! ## rpc-protocol.ts -/

/-- Process signals sent via `proc.kill`. -/
inductive PSignal where
  | SIGTERM
  | SIGKILL
deriving Repr, DecidableEq

/-- A `tool_result` message written to the guest's stdin by `send`. -/
structure SentMsg where
  id : Option JValue
  content : JValue
  error : Option String
deriving Repr

/-- State of one `RpcProtocol` instance: the captured stdout buffer for
non-JSON lines, captured stderr, the current progress line, the messages
sent to the guest, the settlement of the completion promise, the abort
listener (registered with once semantics), the pending 5 second
SIGTERM-to-SIGKILL check, the observed `proc.exitCode` property and the
signals sent so far. -/
structure RpcState where
  stdoutBuf : String
  stderrBuf : String
  currentLine : Option JValue
  sent : List SentMsg
  settled : Option (Except String String)
  listenerOn : Bool
  gracePending : Bool
  exitCodeProp : Option Int
  signals : List PSignal
deriving Repr

/-- Initial `RpcProtocol` state (constructor with an abort signal). -/
def rpcInit : RpcState :=
  ⟨"", "", none, [], none, true, false, none, []⟩

/-- Promise settlement: the first resolution or rejection wins, later ones
are no-ops. -/
def settle (cur : Option (Except String String)) (v : Except String String) :
    Option (Except String String) :=
  match cur with
  | some x => some x
  | none => some v

/-- `result.content || []`: the content field of the dispatch result, or
an empty array when the field is missing or falsy. -/
def contentOrEmpty (result : JValue) : JValue :=
  match getField result "content" with
  | some c => if jsTruthy c then c else .arr []
  | none => .arr []

/-- `RpcProtocol.handleToolCall`: look the tool up in the pinned
catalogue; an unknown name throws `Unknown tool: <name>`, which the
surrounding catch turns into a `tool_result` with empty content and the
message in `error`; a dispatch failure is handled the same way; a dispatch
success sends `tool_result` with `result.content || []`.  The completion
promise is never touched. -/
def handleToolCall (tools : List String)
    (dispatch : String → Option JValue → Except String JValue)
    (st : RpcState) (m : JValue) : RpcState :=
  let idv := getField m "id"
  let toolv := getField m "tool"
  let found : Bool :=
    match toolv with
    | some (.str s) => tools.contains s
    | _ => false
  match toolv, found with
  | some (.str s), true =>
    match dispatch s (getField m "params") with
    | .ok result =>
      { st with sent := st.sent ++ [⟨idv, contentOrEmpty result, none⟩] }
    | .error e =>
      { st with sent := st.sent ++ [⟨idv, .arr [], some e⟩] }
  | _, _ =>
    let nameStr :=
      match toolv with
      | some v => jsToString v
      | none => "undefined"
    { st with sent := st.sent ++ [⟨idv, .arr [], some ("Unknown tool: " ++ nameStr)⟩] }

/-- The `switch (msg.type)` body of `handleMessage` on a successfully
parsed JSON value (not `null`; accessing `.type` on `null` throws and is
handled by the caller's catch).  A tag that matches no case falls through
the switch and the line is silently discarded. -/
def handleParsed (tools : List String)
    (dispatch : String → Option JValue → Except String JValue)
    (st : RpcState) (v : JValue) : RpcState :=
  match getType v with
  | some "tool_call" => handleToolCall tools dispatch st v
  | some "execution_progress" => { st with currentLine := getField v "line" }
  | some "complete" =>
    let outStr :=
      match getField v "output" with
      | some x => jsToString x
      | none => "undefined"
    let finalOutput :=
      if ¬ st.stdoutBuf = "" then st.stdoutBuf ++ "\n" ++ outStr else outStr
    { st with settled := settle st.settled (.ok finalOutput) }
  | some "error" =>
    let msgStr :=
      match getField v "message" with
      | some x => jsToString x
      | none => "undefined"
    let errorMsg :=
      msgStr ++
        (match getField v "traceback" with
          | some t => if jsTruthy t then "\n" ++ jsToString t else ""
          | none => "")
    { st with settled := settle st.settled (.error errorMsg) }
  | some "update" => st
  | _ => st

/-- `RpcProtocol.handleMessage` on one stdout line: try `JSON.parse`; on
failure (including the `null` literal, whose `.type` access throws) the
line is captured print output appended to the stdout buffer; otherwise
dispatch on the message type. -/
def handleMessage (tools : List String)
    (dispatch : String → Option JValue → Except String JValue)
    (st : RpcState) (line : String) : RpcState :=
  match jsonParse line with
  | none =>
    { st with stdoutBuf :=
        if ¬ st.stdoutBuf = "" then st.stdoutBuf ++ "\n" ++ line else line }
  | some .null =>
    { st with stdoutBuf :=
        if ¬ st.stdoutBuf = "" then st.stdoutBuf ++ "\n" ++ line else line }
  | some v => handleParsed tools dispatch st v

/-- The lines `handleMessage` captures as console text: those on which
`JSON.parse` throws, and the bare `null` line, whose `.type` property
access throws inside the try block. -/
def capturedLine (l : String) : Prop :=
  jsonParse l = none ∨ jsonParse l = some JValue.null

/-- Events delivered to an `RpcProtocol` instance by the event loop. -/
inductive RpcEvent where
  | line (s : String)
  | stderrData (s : String)
  | procExit (code : Option Int)
  | procErr (emsg : String)
  | abortSig
  | graceFires
  | timeoutFires
deriving Repr

/-- One event step of `RpcProtocol`.  The constructor registers handlers
for stdout lines, stderr data, process exit, process error and the abort
signal; it registers NO execution timeout, so a `timeoutFires` event has
no handler and leaves the state unchanged. -/
def rpcStep (tools : List String)
    (dispatch : String → Option JValue → Except String JValue)
    (st : RpcState) : RpcEvent → RpcState
  | .line s => handleMessage tools dispatch st s
  | .stderrData s => { st with stderrBuf := st.stderrBuf ++ s }
  | .procExit code =>
    let st := { st with exitCodeProp := code }
    match code with
    | some c =>
      if ¬ c = 0 then
        let errorMsg :=
          if ¬ st.stderrBuf = "" then st.stderrBuf
          else "Process exited with code " ++ toString c
        { st with settled := settle st.settled (.error errorMsg) }
      else st
    | none => st
  | .procErr emsg =>
    { st with settled := settle st.settled (.error ("Process error: " ++ emsg)) }
  | .abortSig =>
    if st.listenerOn then
      { st with
          listenerOn := false
          signals := st.signals ++ [.SIGTERM]
          gracePending := true
          settled := settle st.settled (.error "Execution aborted") }
    else st
  | .graceFires =>
    if st.gracePending then
      let st := { st with gracePending := false }
      if st.exitCodeProp = none then
        { st with signals := st.signals ++ [.SIGKILL] }
      else st
    else st
  | .timeoutFires => st

/-- Run an `RpcProtocol` instance over a list of events. -/
def rpcRun (tools : List String)
    (dispatch : String → Option JValue → Except String JValue)
    (events : List RpcEvent) : RpcState :=
  events.foldl (rpcStep tools dispatch) rpcInit

/-! ## sandbox-manager.ts -/

/-- `EXECUTION_TIMEOUT` (milliseconds): 4.5 minutes. -/
def EXECUTION_TIMEOUT : Nat := 270000

/-- State of one `SubprocessSandbox.execute` promise: captured stdout and
stderr, the `killed` flag, whether the execution timeout is still armed,
whether a 5 second SIGTERM-to-SIGKILL check is pending, whether the abort
listener is attached, the observed `proc.exitCode` property, signals sent
and the settlement of the promise. -/
structure SpState where
  stdoutAcc : String
  stderrAcc : String
  killed : Bool
  timeoutActive : Bool
  gracePending : Bool
  listenerOn : Bool
  exitCodeProp : Option Int
  signals : List PSignal
  settled : Option (Except String String)
deriving Repr

/-- Initial state of `SubprocessSandbox.execute` (timeout armed, abort
listener attached). -/
def spInit : SpState := ⟨"", "", false, true, false, true, none, [], none⟩

/-- Events delivered to a sandbox execution by the event loop. -/
inductive SbEvent where
  | stdoutData (s : String)
  | stderrData (s : String)
  | timeoutFires
  | graceFires
  | abortSig
  | procExit (code : Option Int)
  | procErr (emsg : String)
deriving Repr

/-- The timeout message, built as in the source from
`EXECUTION_TIMEOUT / 1000`. -/
def timeoutMessage : String :=
  "Execution timed out after " ++ toString (EXECUTION_TIMEOUT / 1000) ++ " seconds"

/-- One event step of `SubprocessSandbox.execute`: the timeout handler
kills with SIGTERM, schedules a SIGKILL check after 5 seconds and rejects
with the timeout message; the abort handler clears the timeout and does
the same with the aborted message; the grace check force-kills when the
process has not exited; exit and error handlers settle the promise unless
already killed. -/
def spStep (st : SpState) : SbEvent → SpState
  | .stdoutData s => { st with stdoutAcc := st.stdoutAcc ++ s }
  | .stderrData s => { st with stderrAcc := st.stderrAcc ++ s }
  | .timeoutFires =>
    if st.timeoutActive then
      let st := { st with timeoutActive := false }
      if ¬ st.killed then
        { st with
            killed := true
            signals := st.signals ++ [.SIGTERM]
            gracePending := true
            settled := settle st.settled (.error timeoutMessage) }
      else st
    else st
  | .graceFires =>
    if st.gracePending then
      let st := { st with gracePending := false }
      if st.exitCodeProp = none then
        { st with signals := st.signals ++ [.SIGKILL] }
      else st
    else st
  | .abortSig =>
    if st.listenerOn then
      let st := { st with listenerOn := false }
      if ¬ st.killed then
        { st with
            killed := true
            timeoutActive := false
            signals := st.signals ++ [.SIGTERM]
            gracePending := true
            settled := settle st.settled (.error "Execution aborted") }
      else st
    else st
  | .procExit code =>
    let st := { st with
        timeoutActive := false
        listenerOn := false
        exitCodeProp := code }
    if st.killed then st
    else if code = some 0 then
      { st with settled := settle st.settled (.ok st.stdoutAcc) }
    else
      let codeStr := match code with | some c => toString c | none => "null"
      let errorMsg :=
        if ¬ st.stderrAcc = "" then st.stderrAcc
        else if ¬ st.stdoutAcc = "" then st.stdoutAcc
        else "Process exited with code " ++ codeStr
      { st with settled := settle st.settled (.error errorMsg) }
  | .procErr emsg =>
    let st := { st with timeoutActive := false, listenerOn := false }
    if ¬ st.killed then
      { st with settled :=
          settle st.settled (.error ("Failed to spawn Python process: " ++ emsg)) }
    else st

/-- Run one `SubprocessSandbox.execute` promise over a list of events. -/
def spRun (events : List SbEvent) : SpState := events.foldl spStep spInit

/-- One event step of the promise inside `DockerSandbox.execute` (the
`docker exec` child process).  Its timeout and abort handlers send only
SIGTERM and reject; neither schedules a SIGKILL follow-up, and no
5 second check timer ever exists, so `graceFires` has no handler. -/
def dxStep (st : SpState) : SbEvent → SpState
  | .stdoutData s => { st with stdoutAcc := st.stdoutAcc ++ s }
  | .stderrData s => { st with stderrAcc := st.stderrAcc ++ s }
  | .timeoutFires =>
    if st.timeoutActive then
      let st := { st with timeoutActive := false }
      if ¬ st.killed then
        { st with
            killed := true
            signals := st.signals ++ [.SIGTERM]
            settled := settle st.settled (.error timeoutMessage) }
      else st
    else st
  | .graceFires => st
  | .abortSig =>
    if st.listenerOn then
      let st := { st with listenerOn := false }
      if ¬ st.killed then
        { st with
            killed := true
            timeoutActive := false
            signals := st.signals ++ [.SIGTERM]
            settled := settle st.settled (.error "Execution aborted") }
      else st
    else st
  | .procExit code =>
    let st := { st with
        timeoutActive := false
        listenerOn := false
        exitCodeProp := code }
    if st.killed then st
    else if code = some 0 then
      { st with settled := settle st.settled (.ok st.stdoutAcc) }
    else
      let codeStr := match code with | some c => toString c | none => "null"
      let errorMsg :=
        if ¬ st.stderrAcc = "" then st.stderrAcc
        else if ¬ st.stdoutAcc = "" then st.stdoutAcc
        else "Process exited with code " ++ codeStr
      { st with settled := settle st.settled (.error errorMsg) }
  | .procErr emsg =>
    let st := { st with timeoutActive := false, listenerOn := false }
    if ¬ st.killed then
      { st with settled :=
          settle st.settled (.error ("Failed to execute in Docker: " ++ emsg)) }
    else st

/-- Run one `DockerSandbox.execute` promise over a list of events. -/
def dxRun (events : List SbEvent) : SpState := events.foldl dxStep spInit

/-! ### DockerSandbox container lifecycle -/

/-- Interval of the background reaper timer (`setInterval`, 60 seconds). -/
def cleanupIntervalMs : Nat := 60000

/-- Lifecycle state of a `DockerSandbox`: the current container handle,
its last-used timestamp, the session id, whether the reaper interval is
running, and the `docker run` / `docker stop` commands issued so far. -/
structure DkLife where
  containerId : Option String
  lastUsed : Nat
  sessionId : String
  intervalOn : Bool
  runCmds : List String
  stopCmds : List String
deriving Repr, DecidableEq

/-- A fresh `DockerSandbox` for a session (reaper started). -/
def dkInit (sessionId : String) : DkLife := ⟨none, 0, sessionId, true, [], []⟩

/-- The `docker run` command issued when creating a container, exactly as
concatenated in the source: networking disabled, the working directory
mounted read-only at /workspace, fixed memory and CPU ceilings. -/
def dockerRunCmd (containerName cwd : String) : String :=
  "docker run -d --rm --network none --name " ++ containerName ++ " " ++
    "-v \"" ++ cwd ++ ":/workspace:ro\" " ++
    "--memory 512m --cpus 1.0 " ++
    "python:3.12-slim tail -f /dev/null"

/-- The external `docker stop` invocation; `stopFails` models the command
failing (container already stopped, daemon error, ...). -/
def execDockerStop (stopFails : Bool) (cmd : String) : Except String String :=
  if stopFails then .error ("Command failed: " ++ cmd) else .ok ""

/-- `DockerSandbox.stopContainer`: a no-op without a handle; otherwise run
`docker stop`, swallowing any failure (it is only logged), and always
clear the handle.  Returns `Except` to show no exception escapes. -/
def stopContainerE (stopFails : Bool) (s : DkLife) : Except String DkLife :=
  match s.containerId with
  | none => .ok s
  | some cid =>
    let cmd := "docker stop " ++ cid
    let s1 := { s with stopCmds := s.stopCmds ++ [cmd] }
    let s2 :=
      match execDockerStop stopFails cmd with
      | .ok _ => s1
      | .error _ => s1
    .ok { s2 with containerId := none }

/-- Total form of `stopContainer` (it never actually throws). -/
def stopContainerT (stopFails : Bool) (s : DkLife) : DkLife :=
  match stopContainerE stopFails s with
  | .ok s1 => s1
  | .error _ => s

/-- Create a new container: build the name from the session id and the
current time, issue `docker run` and store the resulting handle (the
stdout of `docker run`, modelled by `newId`) with a fresh timestamp.
(The source wraps a `docker run` failure into a thrown error; the claims
concern the success path.) -/
def createContainer (now : Nat) (cwd newId : String) (s : DkLife) :
    DkLife × String :=
  let containerName := "pi-ptc-" ++ s.sessionId ++ "-" ++ toString now
  let cmd := dockerRunCmd containerName cwd
  ({ s with
      runCmds := s.runCmds ++ [cmd]
      containerId := some newId
      lastUsed := now }, newId)

/-- `DockerSandbox.getOrCreateContainer`: reuse the existing container and
refresh its timestamp when the time since last use is strictly within the
idle window (`EXECUTION_TIMEOUT`); otherwise stop any stale handle and
create a new container. -/
def getOrCreateContainer (now : Nat) (cwd newId : String) (stopFails : Bool)
    (s : DkLife) : DkLife × String :=
  match s.containerId with
  | some cid =>
    if now - s.lastUsed < EXECUTION_TIMEOUT then
      ({ s with lastUsed := now }, cid)
    else
      createContainer now cwd newId (stopContainerT stopFails s)
  | none => createContainer now cwd newId s

/-- `DockerSandbox.cleanupExpired`, the body of the 60 second reaper tick:
stop the container when its idle time strictly exceeds the execution
timeout. -/
def cleanupExpired (now : Nat) (stopFails : Bool) (s : DkLife) : DkLife :=
  match s.containerId with
  | some _ =>
    if now - s.lastUsed > EXECUTION_TIMEOUT then stopContainerT stopFails s
    else s
  | none => s

/-- `DockerSandbox.cleanup`: stop the reaper interval if it is running,
then stop the container.  Returns `Except` to show no exception escapes. -/
def dockerCleanupE (stopFails : Bool) (s : DkLife) : Except String DkLife :=
  let s1 := if s.intervalOn then { s with intervalOn := false } else s
  stopContainerE stopFails s1

/-- Total form of `DockerSandbox.cleanup`. -/
def dockerCleanup (stopFails : Bool) (s : DkLife) : DkLife :=
  let s1 := if s.intervalOn then { s with intervalOn := false } else s
  stopContainerT stopFails s1

/-- `SubprocessSandbox.cleanup`: no persistent resources, a pure no-op on
the (empty) sandbox state. -/
def subprocessCleanup (s : Unit) : Unit := s

/-! ## tool-wrapper.ts -/

/-- A TypeBox / JSON-Schema-like node as read by the generator: the
declared `type` tag, the array `items` schema, a possible `anyOf` union
and a description.  Absent fields are `none` (JS `undefined`). -/
inductive JSchema where
  | mk (ty : Option String) (items : Option JSchema)
      (anyOf : Option (List JSchema)) (description : Option String)

/-- The declared `type` tag of a schema. -/
def JSchema.ty : JSchema → Option String
  | .mk t _ _ _ => t

/-- The `items` schema of an array schema. -/
def JSchema.items : JSchema → Option JSchema
  | .mk _ i _ _ => i

/-- The `anyOf` union members of a schema. -/
def JSchema.anyOf : JSchema → Option (List JSchema)
  | .mk _ _ a _ => a

/-- `schemaToPythonType`: map each declared primitive kind to the nearest
Python type; array item types recurse; unknown or unspecified kinds map
to `Any`. -/
def schemaToPythonType : JSchema → String
  | .mk ty items _ _ =>
    if ty = some "string" then "str"
    else if ty = some "number" then "float"
    else if ty = some "integer" then "int"
    else if ty = some "boolean" then "bool"
    else if ty = some "array" then
      match items with
      | some it => "List[" ++ schemaToPythonType it ++ "]"
      | none => "List[Any]"
    else if ty = some "object" then "Dict[str, Any]"
    else if ty = some "null" then "None"
    else "Any"
termination_by structural s => s

/-- `isOptional`: a schema is an optional (nullable) type when it has an
`anyOf` union with a `null` member. -/
def isOptional (s : JSchema) : Bool :=
  match s.anyOf with
  | some l => l.any (fun x => x.ty = some "null")
  | none => false

/-- `extractNonNullSchema`: the first non-null member of the `anyOf`
union, or the schema itself. -/
def extractNonNullSchema (s : JSchema) : JSchema :=
  match s.anyOf with
  | some l => (l.find? (fun x => ¬ x.ty = some "null")).getD s
  | none => s

/-- The generator's optionality test for one parameter:
`!required.has(paramName) || isOptional(schema)`. -/
def isOptFlag (required : List String) (p : String × JSchema) : Bool :=
  !(required.contains p.1) || isOptional p.2

/-- The type annotation used for one parameter: the non-null member of a
nullable union, otherwise the schema itself. -/
def paramPyType (p : String × JSchema) : String :=
  schemaToPythonType (if isOptional p.2 then extractNonNullSchema p.2 else p.2)

/-- The parameter-signature entry built by `generateToolWrapper` for one
parameter: optional parameters get `Optional[T] = None`, required ones
a bare type annotation. -/
def renderParam (required : List String) (p : String × JSchema) : String :=
  if isOptFlag required p then
    p.1 ++ ": Optional[" ++ paramPyType p ++ "] = None"
  else
    p.1 ++ ": " ++ paramPyType p

/-- The `paramList` of `generateToolWrapper`. -/
def paramListOf (params : List (String × JSchema)) (required : List String) :
    List String :=
  params.map (renderParam required)

/-- `requiredParams`: the entries whose text does not contain `= None`. -/
def requiredEntriesOf (params : List (String × JSchema))
    (required : List String) : List String :=
  (paramListOf params required).filter (fun p => !(occursInS "= None" p))

/-- `optionalParams`: the entries whose text contains `= None`. -/
def optionalEntriesOf (params : List (String × JSchema))
    (required : List String) : List String :=
  (paramListOf params required).filter (fun p => occursInS "= None" p)

/-- The parameters in the order they are rendered in the signature:
first those classified required by the string filter, then those
classified optional. -/
def renderOrderedParams (params : List (String × JSchema))
    (required : List String) : List (String × JSchema) :=
  params.filter (fun p => !(occursInS "= None" (renderParam required p))) ++
    params.filter (fun p => occursInS "= None" (renderParam required p))

/-- The generated function signature, assembled as in
`generateToolWrapper`: required parameters first, then a bare `*`
separator, then the optional (keyword-only) parameters. -/
def buildSignature (name : String) (params : List (String × JSchema))
    (required : List String) : String :=
  let requiredParams := requiredEntriesOf params required
  let optionalParams := optionalEntriesOf params required
  let sig0 := "async def " ++ name ++ "("
  let sig1 :=
    if requiredParams.length > 0 then
      let s := sig0 ++ "\n    " ++ String.intercalate ",\n    " requiredParams
      if optionalParams.length > 0 then
        s ++ ",\n    *,\n    " ++ String.intercalate ",\n    " optionalParams
      else s
    else if optionalParams.length > 0 then
      sig0 ++ "\n    *,\n    " ++ String.intercalate ",\n    " optionalParams
    else sig0
  sig1 ++ "\n) -> str:"

/-! ## Concrete instances used by witnesses and counterexamples -/

/-- A placeholder tool dispatcher for runs that never reach `tool_call`. -/
def noDispatch : String → Option JValue → Except String JValue :=
  fun _ _ => .error "unused"

/-- A `tool_call` message object as decoded from the guest's JSON line. -/
def toolCallMsg (i : JValue) (name : String) (p : JValue) : JValue :=
  .obj [("id", i), ("tool", .str name), ("params", p)]

/-- A concrete dispatcher: `read` succeeds with one text block, anything
else fails with `boom`. -/
def demoDispatch : String → Option JValue → Except String JValue :=
  fun n _ =>
    if n = "read" then .ok (.obj [("content", .arr [.str "ok"])])
    else .error "boom"

/-- Lines joined in arrival order with newline separators, matching the
accumulation `stdout += "\n" + line` starting from the first line. -/
def joinLines : List String → String
  | [] => ""
  | [l] => l
  | l :: rest => l ++ "\n" ++ joinLines rest

/-- A plain string-typed schema. -/
def strSchema : JSchema := .mk (some "string") none none none

/-- A nullable integer schema (`anyOf` of integer and null). -/
def intNullable : JSchema :=
  .mk none none
    (some [.mk (some "integer") none none none, .mk (some "null") none none none])
    none

/-! ## Helper lemmas -/

theorem str_data_append (a b : String) : (a ++ b).data = a.data ++ b.data :=
  String.data_append a b

theorem str_append_ne_empty_left {s : String} (t : String) (h : ¬ s = "") :
    ¬ (s ++ t) = "" := by
  intro hc
  apply h
  have hd := congrArg String.data hc
  rw [String.data_append] at hd
  rcases List.append_eq_nil.mp hd with ⟨h1, _⟩
  apply String.ext
  rw [h1]

/-! ## Theorems -/

/-- C4: `truncateOutput` returns its input unchanged when the length is at
most 100,000 characters; when the length exceeds 100,000 it returns
exactly the first 100,000 characters followed by the fixed notice stating
the original length. -/
theorem claimC4_truncateOutput (s : String) :
    (s.length ≤ 100000 → truncateOutput s = s) ∧
    (100000 < s.length →
      truncateOutput s =
        substringTo s 100000 ++
          ("\n\n[Output truncated - showing first 100000 characters of " ++
            toString s.length ++ "]") ∧
      (substringTo s 100000).length = 100000) := by
  constructor
  · intro h
    simp [truncateOutput, MAX_OUTPUT_SIZE, h]
  · intro h
    constructor
    · rw [truncateOutput, if_neg (by simp [MAX_OUTPUT_SIZE]; omega)]
      rw [show ("\n\n[Output truncated - showing first " ++ toString MAX_OUTPUT_SIZE ++
        " characters of " : String) =
        "\n\n[Output truncated - showing first 100000 characters of " from rfl]
      rfl
    · have hsl : s.data.length = s.length := rfl
      simp only [substringTo, String.length_mk, List.length_take]
      omega

/-- C4 witness: a 150,000-character output is cut to its first 100,000
characters plus the notice stating 150000, and small inputs are returned
unchanged. -/
theorem claimC4_witness :
    truncateOutput "ab" = "ab" ∧
    truncateOutput (String.mk (List.replicate 150000 'a')) =
      substringTo (String.mk (List.replicate 150000 'a')) 100000 ++
        ("\n\n[Output truncated - showing first 100000 characters of " ++
          toString (String.mk (List.replicate 150000 'a')).length ++ "]") ∧
    (substringTo (String.mk (List.replicate 150000 'a')) 100000).length = 100000 ∧
    toString (String.mk (List.replicate 150000 'a')).length = "150000" := by
  have hlen : (String.mk (List.replicate 150000 'a')).length = 150000 := by
    rw [String.length_mk, List.length_replicate]
  have hgt : 100000 < (String.mk (List.replicate 150000 'a')).length := by
    rw [hlen]; decide
  refine ⟨(claimC4_truncateOutput "ab").1 (by decide),
    ((claimC4_truncateOutput _).2 hgt).1,
    ((claimC4_truncateOutput _).2 hgt).2, ?_⟩
  rw [hlen]
  rfl

/-- C8: `schemaToPythonType` maps each declared primitive kind to the
nearest Python type, maps any unknown or unspecified kind to `Any`, and
maps arrays to `List[T]` with the item type obtained by recursion. -/
theorem claimC8_schemaToPythonType :
    (∀ i a d, schemaToPythonType (.mk (some "string") i a d) = "str") ∧
    (∀ i a d, schemaToPythonType (.mk (some "number") i a d) = "float") ∧
    (∀ i a d, schemaToPythonType (.mk (some "integer") i a d) = "int") ∧
    (∀ i a d, schemaToPythonType (.mk (some "boolean") i a d) = "bool") ∧
    (∀ i a d, schemaToPythonType (.mk (some "null") i a d) = "None") ∧
    (∀ i a d, schemaToPythonType (.mk (some "object") i a d) = "Dict[str, Any]") ∧
    (∀ a d it, schemaToPythonType (.mk (some "array") (some it) a d) =
      "List[" ++ schemaToPythonType it ++ "]") ∧
    (∀ a d, schemaToPythonType (.mk (some "array") none a d) = "List[Any]") ∧
    (∀ i a d, schemaToPythonType (.mk none i a d) = "Any") ∧
    (∀ t i a d,
      ¬ t ∈ ["string", "number", "integer", "boolean", "array", "object", "null"] →
      schemaToPythonType (.mk (some t) i a d) = "Any") := by
  refine ⟨fun i a d => by rw [schemaToPythonType.eq_def]; simp,
    fun i a d => by rw [schemaToPythonType.eq_def]; simp,
    fun i a d => by rw [schemaToPythonType.eq_def]; simp,
    fun i a d => by rw [schemaToPythonType.eq_def]; simp,
    fun i a d => by rw [schemaToPythonType.eq_def]; simp,
    fun i a d => by rw [schemaToPythonType.eq_def]; simp,
    fun a d it => by rw [schemaToPythonType.eq_def]; simp,
    fun a d => by rw [schemaToPythonType.eq_def]; simp,
    fun i a d => by rw [schemaToPythonType.eq_def]; simp, ?_⟩
  intro t i a d h
  simp only [List.mem_cons, List.not_mem_nil, or_false, not_or] at h
  obtain ⟨h1, h2, h3, h4, h5, h6, h7⟩ := h
  rw [schemaToPythonType.eq_def]
  simp [h1, h2, h3, h4, h5, h6, h7]

/-- C8 witness: a concrete unknown kind maps to `Any`, and a concrete
nested array recurses on its item type. -/
theorem claimC8_witness :
    schemaToPythonType (.mk (some "frobnicate") none none none) = "Any" ∧
    schemaToPythonType
      (.mk (some "array") (some (.mk (some "string") none none none)) none none) =
      "List[str]" := by
  constructor
  · exact claimC8_schemaToPythonType.2.2.2.2.2.2.2.2.2 "frobnicate" none none none
      (by decide)
  · rw [claimC8_schemaToPythonType.2.2.2.2.2.2.1 none none
      (.mk (some "string") none none none)]
    rw [claimC8_schemaToPythonType.1 none none none]
    rfl

/-- C10: after every call to `stopContainer` the container handle is
null and no exception escapes, even when `docker stop` fails: the attempt
is recorded and its failure is swallowed. -/
theorem claimC10_stopContainer (stopFails : Bool) (s : DkLife) :
    stopContainerE stopFails s =
      .ok (match s.containerId with
        | none => s
        | some cid =>
          { s with containerId := none
                   stopCmds := s.stopCmds ++ ["docker stop " ++ cid] }) ∧
    (stopContainerT stopFails s).containerId = none := by
  cases h : s.containerId with
  | none =>
    constructor
    · simp [stopContainerE, h]
    · simp [stopContainerT, stopContainerE, h]
  | some cid =>
    constructor
    · cases stopFails <;> simp [stopContainerE, h, execDockerStop]
    · cases stopFails <;> simp [stopContainerT, stopContainerE, h, execDockerStop]

/-- C9: `cleanup` is idempotent for both backends: the Docker cleanup
never raises, leaves no container handle, and a second cleanup issues no
further `docker stop`; the subprocess cleanup is a pure no-op. -/
theorem claimC9_cleanup_idempotent (f1 f2 : Bool) (s : DkLife) (u : Unit) :
    dockerCleanupE f1 s = .ok (dockerCleanup f1 s) ∧
    (dockerCleanup f1 s).containerId = none ∧
    dockerCleanupE f2 (dockerCleanup f1 s) = .ok (dockerCleanup f2 (dockerCleanup f1 s)) ∧
    (dockerCleanup f2 (dockerCleanup f1 s)).stopCmds = (dockerCleanup f1 s).stopCmds ∧
    subprocessCleanup u = u := by
  cases h : s.containerId with
  | none =>
    cases hi : s.intervalOn <;>
      simp [dockerCleanupE, dockerCleanup, stopContainerE, stopContainerT, h, hi,
        subprocessCleanup]
  | some cid =>
    cases hi : s.intervalOn <;> cases f1 <;> cases f2 <;>
      simp [dockerCleanupE, dockerCleanup, stopContainerE, stopContainerT, h, hi,
        execDockerStop, subprocessCleanup]

/-- C1 (code bug evidence): the 270-second timeout exists only in the
sandbox-manager execution paths.  `SubprocessSandbox.execute` rejects with
the timeout message and applies the same SIGTERM-then-SIGKILL sequence as
cancellation; but `RpcProtocol` — the machinery `CodeExecutor.execute`
actually drives (it spawns python directly and never calls
`SandboxManager.execute`) — registers no timeout, so timer expiry events
never settle it and an infinite loop is never terminated. -/
theorem claimC1_timeout_evidence :
    EXECUTION_TIMEOUT = 270000 ∧
    timeoutMessage = "Execution timed out after 270 seconds" ∧
    (spRun [.timeoutFires, .graceFires]).settled =
      some (.error "Execution timed out after 270 seconds") ∧
    (spRun [.timeoutFires, .graceFires]).signals = [.SIGTERM, .SIGKILL] ∧
    (spRun [.timeoutFires, .graceFires]).signals =
      (spRun [.abortSig, .graceFires]).signals ∧
    (∀ n : Nat,
      rpcRun [] noDispatch (List.replicate n .timeoutFires) = rpcInit) := by
  refine ⟨rfl, rfl, rfl, rfl, rfl, ?_⟩
  intro n
  induction n with
  | zero => rfl
  | succ k ih =>
    rw [List.replicate_succ]
    show List.foldl (rpcStep [] noDispatch)
      (rpcStep [] noDispatch rpcInit .timeoutFires) (List.replicate k .timeoutFires) =
      rpcInit
    exact ih

/-- No event ever makes the `docker exec` promise inside
`DockerSandbox.execute` send SIGKILL: neither its timeout nor its abort
handler schedules a force-kill. -/
theorem dxStep_no_sigkill (s : SpState) (e : SbEvent)
    (h : ¬ PSignal.SIGKILL ∈ s.signals) : ¬ PSignal.SIGKILL ∈ (dxStep s e).signals := by
  cases e <;>
    simp only [dxStep] <;>
    (repeat' split) <;>
    first
    | exact h
    | simp_all [List.mem_append]

/-- Over any event trace, the `docker exec` promise never sends SIGKILL. -/
theorem dxRun_no_sigkill_aux :
    ∀ (evs : List SbEvent) (s : SpState), ¬ PSignal.SIGKILL ∈ s.signals →
      ¬ PSignal.SIGKILL ∈ (List.foldl dxStep s evs).signals := by
  intro evs
  induction evs with
  | nil => intro s h; simpa using h
  | cons e rest ih =>
    intro s h
    rw [List.foldl_cons]
    exact ih _ (dxStep_no_sigkill s e h)

/-- C5 counterexample: after an abort and the passing of the grace window
with the process still running (`exitCode` still null), the
`DockerSandbox.execute` abort handler has sent only SIGTERM — there is no
SIGKILL escalation, contradicting the claim for this cited handler. -/
theorem claimC5_counterexample :
    (dxRun [.abortSig, .graceFires]).signals = [PSignal.SIGTERM] ∧
    (dxRun [.abortSig, .graceFires]).exitCodeProp = none ∧
    (dxRun [.abortSig, .graceFires]).settled = some (.error "Execution aborted") ∧
    ¬ PSignal.SIGKILL ∈ (dxRun [.abortSig, .graceFires]).signals := by
  refine ⟨rfl, rfl, rfl, ?_⟩
  decide

/-- C5 (amended): on cancellation, `RpcProtocol` and
`SubprocessSandbox.execute` send SIGTERM, reject with the aborted-execution
error and force-kill with SIGKILL after the 5-second grace window when the
process has not exited (no SIGKILL when it has exited); a second
cancellation is a no-op in all three handlers; the `DockerSandbox.execute`
abort handler sends only SIGTERM and rejects, and never escalates to
SIGKILL. -/
theorem claimC5_abort_handling :
    (rpcRun [] noDispatch [.abortSig, .graceFires]).signals =
      [PSignal.SIGTERM, PSignal.SIGKILL] ∧
    (rpcRun [] noDispatch [.abortSig, .graceFires]).settled =
      some (.error "Execution aborted") ∧
    (spRun [.abortSig, .graceFires]).signals = [PSignal.SIGTERM, PSignal.SIGKILL] ∧
    (spRun [.abortSig, .graceFires]).settled = some (.error "Execution aborted") ∧
    (spRun [.abortSig, .procExit (some 143), .graceFires]).signals = [PSignal.SIGTERM] ∧
    (∀ t, rpcRun [] noDispatch (.abortSig :: .abortSig :: t) =
      rpcRun [] noDispatch (.abortSig :: t)) ∧
    (∀ t, spRun (.abortSig :: .abortSig :: t) = spRun (.abortSig :: t)) ∧
    (∀ t, dxRun (.abortSig :: .abortSig :: t) = dxRun (.abortSig :: t)) ∧
    (dxRun [.abortSig]).signals = [PSignal.SIGTERM] ∧
    (dxRun [.abortSig]).settled = some (.error "Execution aborted") ∧
    (∀ evs, ¬ PSignal.SIGKILL ∈ (dxRun evs).signals) := by
  refine ⟨rfl, rfl, rfl, rfl, rfl, fun t => rfl, fun t => rfl, fun t => rfl,
    rfl, rfl, ?_⟩
  intro evs
  exact dxRun_no_sigkill_aux evs spInit (by simp [spInit])

/-- `stopContainer` never issues a `docker run`. -/
theorem stopContainerT_runCmds (f : Bool) (s : DkLife) :
    (stopContainerT f s).runCmds = s.runCmds := by
  cases h : s.containerId <;> cases f <;>
    simp [stopContainerT, stopContainerE, execDockerStop, h]

/-- The generated `docker run` command disables networking, mounts the
working directory read-only and sets fixed memory and CPU ceilings. -/
theorem dockerRunCmd_flags (nm c : String) :
    occursInS "--network none" (dockerRunCmd nm c) = true ∧
    occursInS ":/workspace:ro" (dockerRunCmd nm c) = true ∧
    occursInS "--memory 512m" (dockerRunCmd nm c) = true ∧
    occursInS "--cpus 1.0" (dockerRunCmd nm c) = true := by
  unfold occursInS dockerRunCmd
  simp only [str_data_append, List.append_assoc]
  refine ⟨?_, ?_, ?_, ?_⟩
  · exact occursIn_append_left _ (by decide)
  · apply occursIn_append_right
    apply occursIn_append_right
    apply occursIn_append_right
    apply occursIn_append_right
    apply occursIn_append_right
    exact occursIn_append_left _ (by decide)
  · apply occursIn_append_right
    apply occursIn_append_right
    apply occursIn_append_right
    apply occursIn_append_right
    apply occursIn_append_right
    apply occursIn_append_right
    exact occursIn_append_left _ (by decide)
  · apply occursIn_append_right
    apply occursIn_append_right
    apply occursIn_append_right
    apply occursIn_append_right
    apply occursIn_append_right
    apply occursIn_append_right
    exact occursIn_append_left _ (by decide)

/-- C6: acquiring a container reuses the live handle and refreshes its
timestamp exactly when the idle time is within the execution-timeout
window; otherwise a stale handle is stopped and a new container is created
with networking disabled, a read-only workspace mount and fixed
memory/CPU ceilings; the 60-second reaper stops a container exactly when
its idle time exceeds the timeout; and two sequential acquisitions within
the window share one handle with no second `docker run`. -/
theorem claimC6_container_lifecycle (s : DkLife) (now : Nat) (cwd nid : String)
    (f : Bool) :
    ((getOrCreateContainer now cwd nid f s).1.runCmds = s.runCmds ↔
      (∃ cid, s.containerId = some cid ∧ now - s.lastUsed < EXECUTION_TIMEOUT)) ∧
    (∀ cid, s.containerId = some cid → now - s.lastUsed < EXECUTION_TIMEOUT →
      getOrCreateContainer now cwd nid f s = ({ s with lastUsed := now }, cid)) ∧
    (s.containerId = none →
      getOrCreateContainer now cwd nid f s = createContainer now cwd nid s) ∧
    (∀ cid, s.containerId = some cid → ¬ now - s.lastUsed < EXECUTION_TIMEOUT →
      getOrCreateContainer now cwd nid f s =
        createContainer now cwd nid (stopContainerT f s)) ∧
    ((createContainer now cwd nid s).1.runCmds =
      s.runCmds ++
        [dockerRunCmd ("pi-ptc-" ++ s.sessionId ++ "-" ++ toString now) cwd] ∧
      (createContainer now cwd nid s).1.containerId = some nid ∧
      (createContainer now cwd nid s).1.lastUsed = now) ∧
    (∀ cid, s.containerId = some cid → now - s.lastUsed > EXECUTION_TIMEOUT →
      cleanupExpired now f s =
        { s with containerId := none
                 stopCmds := s.stopCmds ++ ["docker stop " ++ cid] }) ∧
    (now - s.lastUsed ≤ EXECUTION_TIMEOUT → cleanupExpired now f s = s) ∧
    cleanupIntervalMs = 60000 ∧
    (∀ t0 t1 g sess, t1 - t0 < EXECUTION_TIMEOUT →
      (getOrCreateContainer t1 cwd nid g
          (getOrCreateContainer t0 cwd nid f (dkInit sess)).1).2 =
        (getOrCreateContainer t0 cwd nid f (dkInit sess)).2 ∧
      (getOrCreateContainer t1 cwd nid g
          (getOrCreateContainer t0 cwd nid f (dkInit sess)).1).1.runCmds.length = 1) := by
  refine ⟨?_, ?_, ?_, ?_, ?_, ?_, ?_, rfl, ?_⟩
  · constructor
    · intro hr
      cases h : s.containerId with
      | none =>
        rw [getOrCreateContainer] at hr
        simp only [h, createContainer] at hr
        have := congrArg List.length hr
        simp at this
      | some cid =>
        by_cases ht : now - s.lastUsed < EXECUTION_TIMEOUT
        · exact ⟨cid, rfl, ht⟩
        · rw [getOrCreateContainer] at hr
          simp only [h, if_neg ht, createContainer] at hr
          rw [stopContainerT_runCmds] at hr
          have := congrArg List.length hr
          simp at this
    · rintro ⟨cid, h, ht⟩
      simp [getOrCreateContainer, h, ht]
  · intro cid h ht
    simp [getOrCreateContainer, h, ht]
  · intro h
    simp [getOrCreateContainer, h]
  · intro cid h ht
    simp [getOrCreateContainer, h, ht]
  · exact ⟨rfl, rfl, rfl⟩
  · intro cid h ht
    cases f <;>
      simp [cleanupExpired, h, ht, stopContainerT, stopContainerE, execDockerStop]
  · intro ht
    cases h : s.containerId with
    | none => simp [cleanupExpired, h]
    | some cid => simp [cleanupExpired, h, Nat.not_lt.mpr ht, Nat.lt_irrefl]
  · intro t0 t1 g sess ht
    have h1 : getOrCreateContainer t0 cwd nid f (dkInit sess) =
        createContainer t0 cwd nid (dkInit sess) := by
      simp [getOrCreateContainer, dkInit]
    rw [h1]
    have h2 : (createContainer t0 cwd nid (dkInit sess)).1.containerId = some nid := rfl
    have h3 : (createContainer t0 cwd nid (dkInit sess)).1.lastUsed = t0 := rfl
    constructor
    · rw [getOrCreateContainer]
      simp only [createContainer, dkInit]
      simp [ht]
    · rw [getOrCreateContainer]
      simp only [createContainer, dkInit]
      simp [ht]

/-- C6 witness: a live container acquired again 1 second later is reused
with a refreshed timestamp, a container idle for longer than the timeout
is reaped, and two acquisitions 100 ms apart create exactly one
container. -/
theorem claimC6_witness :
    getOrCreateContainer 1000 "/w" "nid" false
        (⟨some "c1", 5, "sess", true, [], []⟩ : DkLife) =
      ({ (⟨some "c1", 5, "sess", true, [], []⟩ : DkLife) with lastUsed := 1000 },
        "c1") ∧
    cleanupExpired 300000 false (⟨some "c2", 0, "sess", true, [], []⟩ : DkLife) =
      ⟨none, 0, "sess", true, [], ["docker stop c2"]⟩ ∧
    (getOrCreateContainer 100 "/w" "nid" false
        (getOrCreateContainer 0 "/w" "nid" false (dkInit "sess")).1).2 =
      (getOrCreateContainer 0 "/w" "nid" false (dkInit "sess")).2 ∧
    (getOrCreateContainer 100 "/w" "nid" false
        (getOrCreateContainer 0 "/w" "nid" false (dkInit "sess")).1).1.runCmds.length
      = 1 := by
  refine ⟨?_, ?_, ?_, ?_⟩
  · exact (claimC6_container_lifecycle ⟨some "c1", 5, "sess", true, [], []⟩ 1000
      "/w" "nid" false).2.1 "c1" rfl (by decide)
  · have h := (claimC6_container_lifecycle ⟨some "c2", 0, "sess", true, [], []⟩
      300000 "/w" "nid" false).2.2.2.2.2.1 "c2" rfl (by decide)
    rw [h]
    rfl
  · exact ((claimC6_container_lifecycle (dkInit "sess") 0 "/w" "nid"
      false).2.2.2.2.2.2.2.2 0 100 false "sess" (by decide)).1
  · exact ((claimC6_container_lifecycle (dkInit "sess") 0 "/w" "nid"
      false).2.2.2.2.2.2.2.2 0 100 false "sess" (by decide)).2

/-- C3: on a `tool_call` whose name is absent from the pinned catalogue,
`handleToolCall` sends a `tool_result` for the same id with an empty
content array and an error referencing the unknown name; on a dispatch
failure it sends the failure's message the same way; on success it sends
the dispatcher's content; and in every case the completion promise is
untouched. -/
theorem claimC3_handleToolCall (tools : List String)
    (dispatch : String → Option JValue → Except String JValue)
    (st : RpcState) (i p : JValue) (name : String) :
    (handleToolCall tools dispatch st (toolCallMsg i name p)).settled = st.settled ∧
    (¬ name ∈ tools →
      handleToolCall tools dispatch st (toolCallMsg i name p) =
        { st with sent :=
            st.sent ++ [⟨some i, .arr [], some ("Unknown tool: " ++ name)⟩] }) ∧
    (name ∈ tools → ∀ e, dispatch name (some p) = .error e →
      handleToolCall tools dispatch st (toolCallMsg i name p) =
        { st with sent := st.sent ++ [⟨some i, .arr [], some e⟩] }) ∧
    (name ∈ tools → ∀ r, dispatch name (some p) = .ok r →
      handleToolCall tools dispatch st (toolCallMsg i name p) =
        { st with sent := st.sent ++ [⟨some i, contentOrEmpty r, none⟩] } ∧
      (∀ c, getField r "content" = some c → jsTruthy c = true →
        contentOrEmpty r = c)) := by
  have hid : getField (toolCallMsg i name p) "id" = some i := rfl
  have htool : getField (toolCallMsg i name p) "tool" = some (.str name) := rfl
  have hparams : getField (toolCallMsg i name p) "params" = some p := rfl
  refine ⟨?_, ?_, ?_, ?_⟩
  · unfold handleToolCall
    rw [hid, htool, hparams]
    by_cases hmem : name ∈ tools
    · cases hd : dispatch name (some p) <;> simp [hmem, hd]
    · simp [hmem]
  · intro h
    unfold handleToolCall
    rw [hid, htool, hparams]
    simp [h, jsToString]
  · intro h e hd
    unfold handleToolCall
    rw [hid, htool, hparams]
    simp [h, hd]
  · intro h r hd
    constructor
    · unfold handleToolCall
      rw [hid, htool, hparams]
      simp [h, hd]
    · intro c hcf htr
      simp [contentOrEmpty, hcf, htr]

/-- C3 witness: concrete unknown-tool, dispatch-failure and
dispatch-success calls produce the synthesized results and leave the
completion promise untouched. -/
theorem claimC3_witness :
    handleToolCall ["read"] demoDispatch rpcInit
        (toolCallMsg (.str "1") "nope" (.obj [])) =
      { rpcInit with sent :=
          rpcInit.sent ++ [⟨some (.str "1"), .arr [], some "Unknown tool: nope"⟩] } ∧
    handleToolCall ["read", "fail"] demoDispatch rpcInit
        (toolCallMsg (.str "3") "fail" (.obj [])) =
      { rpcInit with sent := rpcInit.sent ++ [⟨some (.str "3"), .arr [], some "boom"⟩] } ∧
    handleToolCall ["read"] demoDispatch rpcInit
        (toolCallMsg (.str "2") "read" (.obj [])) =
      { rpcInit with sent :=
          rpcInit.sent ++
            [⟨some (.str "2"),
              contentOrEmpty (.obj [("content", .arr [.str "ok"])]), none⟩] } ∧
    contentOrEmpty (.obj [("content", .arr [.str "ok"])]) = .arr [.str "ok"] ∧
    (handleToolCall ["read"] demoDispatch rpcInit
        (toolCallMsg (.str "2") "read" (.obj []))).settled = rpcInit.settled := by
  refine ⟨?_, ?_, ?_, rfl, ?_⟩
  · exact (claimC3_handleToolCall ["read"] demoDispatch rpcInit (.str "1") (.obj [])
      "nope").2.1 (by decide)
  · exact (claimC3_handleToolCall ["read", "fail"] demoDispatch rpcInit (.str "3")
      (.obj []) "fail").2.2.1 (by decide) "boom" rfl
  · exact ((claimC3_handleToolCall ["read"] demoDispatch rpcInit (.str "2") (.obj [])
      "read").2.2.2 (by decide) (.obj [("content", .arr [.str "ok"])]) rfl).1
  · exact (claimC3_handleToolCall ["read"] demoDispatch rpcInit (.str "2") (.obj [])
      "read").1

theorem joinLines_ne_empty (l : String) (rest : List String) (h : ¬ l = "") :
    ¬ joinLines (l :: rest) = "" := by
  cases rest with
  | nil => simpa [joinLines] using h
  | cons r rs =>
    show ¬ (l ++ "\n" ++ joinLines (r :: rs)) = ""
    exact str_append_ne_empty_left _ (str_append_ne_empty_left _ h)

/-- A captured line — one on which `JSON.parse` throws, or the bare
`null` line whose property access throws — is appended to the captured
stdout buffer by the accumulation rule and has no other effect. -/
theorem handleMessage_captured (tools : List String)
    (dispatch : String → Option JValue → Except String JValue)
    (st : RpcState) {l : String} (h : capturedLine l) :
    handleMessage tools dispatch st l =
      { st with stdoutBuf :=
          if ¬ st.stdoutBuf = "" then st.stdoutBuf ++ "\n" ++ l else l } := by
  rcases h with h | h
  · unfold handleMessage
    rw [h]
  · unfold handleMessage
    rw [h]

/-- Folding captured, nonempty lines into a state with a nonempty buffer
appends them in arrival order, separated by newlines, and changes nothing
else. -/
theorem buffer_fold (tools : List String)
    (dispatch : String → Option JValue → Except String JValue) :
    ∀ (ls : List String) (st : RpcState),
      (∀ l ∈ ls, capturedLine l) → (∀ l ∈ ls, ¬ l = "") →
      ¬ st.stdoutBuf = "" →
      List.foldl (handleMessage tools dispatch) st ls =
        { st with stdoutBuf :=
            match ls with
            | [] => st.stdoutBuf
            | _ :: _ => st.stdoutBuf ++ "\n" ++ joinLines ls } := by
  intro ls
  induction ls with
  | nil => intro st _ _ _; rfl
  | cons l rest ih =>
    intro st h1 h2 hb
    rw [List.foldl_cons,
      handleMessage_captured tools dispatch st (h1 l (List.mem_cons_self l rest)),
      if_pos hb]
    have hb2 : ¬ (st.stdoutBuf ++ "\n" ++ l : String) = "" :=
      str_append_ne_empty_left _ (str_append_ne_empty_left _ hb)
    rw [ih _ (fun x hx => h1 x (List.mem_cons_of_mem _ hx))
      (fun x hx => h2 x (List.mem_cons_of_mem _ hx)) hb2]
    cases rest with
    | nil => rfl
    | cons r rs => simp [joinLines, String.append_assoc]

/-- The `complete` branch: prepend the captured stdout buffer (when
nonempty) to the declared output and resolve the completion promise. -/
theorem handleParsed_complete (tools : List String)
    (dispatch : String → Option JValue → Except String JValue)
    (st : RpcState) (o : String) :
    handleParsed tools dispatch st
        (.obj [("type", .str "complete"), ("output", .str o)]) =
      { st with settled := (settle st.settled
          (.ok (if ¬ st.stdoutBuf = "" then st.stdoutBuf ++ "\n" ++ o else o))) } :=
  rfl

/-- C2 (amended): every line on which `JSON.parse` fails — including the
bare `null` line, whose property access throws — is treated as opaque
captured console output, never an error: each such line `l` updates the
capture buffer `b` to `b + newline + l` when `b` is nonempty and to `l`
when it is empty, so nonempty captured lines are buffered in arrival
order joined by newlines while an empty line is dropped when the buffer
is empty; once a `complete` message arrives, a nonempty buffer is
prepended to the declared output separated by a newline.  (A line that
parses as JSON but is not a recognized message object is silently
discarded, not buffered — see the counterexample.) -/
theorem claimC2_captured_output (tools : List String)
    (dispatch : String → Option JValue → Except String JValue) :
    (∀ (st : RpcState) (l : String), capturedLine l →
      handleMessage tools dispatch st l =
        { st with stdoutBuf :=
            if ¬ st.stdoutBuf = "" then st.stdoutBuf ++ "\n" ++ l else l }) ∧
    capturedLine "null" ∧
    (∀ st : RpcState, handleMessage tools dispatch st "null" =
      { st with stdoutBuf :=
          if ¬ st.stdoutBuf = "" then st.stdoutBuf ++ "\n" ++ "null" else "null" }) ∧
    (∀ st : RpcState, st.stdoutBuf = "" → handleMessage tools dispatch st "" = st) ∧
    (∀ (ls : List String) (o : String),
      (∀ l ∈ ls, capturedLine l) → (∀ l ∈ ls, ¬ l = "") → ls ≠ [] →
      (List.foldl (handleMessage tools dispatch) rpcInit ls).stdoutBuf =
        joinLines ls ∧
      (List.foldl (handleMessage tools dispatch) rpcInit ls).settled = none ∧
      handleParsed tools dispatch
          (List.foldl (handleMessage tools dispatch) rpcInit ls)
          (.obj [("type", .str "complete"), ("output", .str o)]) =
        { (List.foldl (handleMessage tools dispatch) rpcInit ls) with
            settled := some (.ok (joinLines ls ++ "\n" ++ o)) }) := by
  refine ⟨fun st l h => handleMessage_captured tools dispatch st h,
    Or.inr rfl,
    fun st => handleMessage_captured tools dispatch st (Or.inr rfl), ?_, ?_⟩
  · intro st hb
    have h0 : capturedLine "" := Or.inl rfl
    rw [handleMessage_captured tools dispatch st h0]
    rw [if_neg (by simp [hb])]
    cases st
    simp_all
  · intro ls o h1 h2 h3
    cases ls with
    | nil => exact absurd rfl h3
    | cons l rest =>
      have hl : capturedLine l := h1 l (List.mem_cons_self l rest)
      have hlne : ¬ l = "" := h2 l (List.mem_cons_self l rest)
      have hstep : handleMessage tools dispatch rpcInit l =
          { rpcInit with stdoutBuf := l } := by
        rw [handleMessage_captured tools dispatch rpcInit hl]
        rfl
      have hfold : List.foldl (handleMessage tools dispatch) rpcInit (l :: rest) =
          { rpcInit with stdoutBuf := joinLines (l :: rest) } := by
        rw [List.foldl_cons, hstep]
        rw [buffer_fold tools dispatch rest { rpcInit with stdoutBuf := l }
          (fun x hx => h1 x (List.mem_cons_of_mem _ hx))
          (fun x hx => h2 x (List.mem_cons_of_mem _ hx)) hlne]
        cases rest with
        | nil => rfl
        | cons r rs => rfl
      have hne : ¬ joinLines (l :: rest) = "" := joinLines_ne_empty l rest hlne
      refine ⟨by rw [hfold], by rw [hfold]; rfl, ?_⟩
      rw [hfold, handleParsed_complete]
      show (⟨joinLines (l :: rest), "", none, [],
          settle none (.ok (if ¬ joinLines (l :: rest) = "" then
            joinLines (l :: rest) ++ "\n" ++ o else o)),
          true, false, none, []⟩ : RpcState) = _
      rw [if_pos hne]
      rfl

/-- C2 witness: the `null` line is captured as text, an empty line is
dropped while the buffer is empty, and two nonempty print lines followed
by a `complete` with output `done` resolve with the lines prepended,
newline-separated. -/
theorem claimC2_witness :
    handleMessage [] noDispatch rpcInit "null" =
      { rpcInit with stdoutBuf := "null" } ∧
    handleMessage [] noDispatch rpcInit "" = rpcInit ∧
    (List.foldl (handleMessage [] noDispatch) rpcInit ["hello", "world"]).stdoutBuf =
      joinLines ["hello", "world"] ∧
    handleParsed [] noDispatch
        (List.foldl (handleMessage [] noDispatch) rpcInit ["hello", "world"])
        (.obj [("type", .str "complete"), ("output", .str "done")]) =
      { (List.foldl (handleMessage [] noDispatch) rpcInit ["hello", "world"]) with
          settled := some (.ok (joinLines ["hello", "world"] ++ "\n" ++ "done")) } := by
  have h := claimC2_captured_output [] noDispatch
  have hfold := h.2.2.2.2 ["hello", "world"] "done"
    (by intro l hl; fin_cases hl <;> exact Or.inl rfl)
    (by intro l hl; fin_cases hl <;> decide)
    (by simp)
  exact ⟨(h.2.2.1 rpcInit).trans rfl, h.2.2.2.1 rpcInit rfl, hfold.1, hfold.2.2⟩

/-- C2 counterexample: the line `42` parses as JSON but is not one of the
`RpcMessage` variants; the claim says it must be buffered as captured text
and prepended to the final output, but `handleMessage` silently discards
it: after `42` and a `complete` with output `done`, the result is `done`,
not `42` + newline + `done`. -/
theorem claimC2_counterexample :
    jsonParse "42" = some (.num "42") ∧
    getType (JValue.num "42") = none ∧
    handleMessage [] noDispatch rpcInit "42" = rpcInit ∧
    (handleParsed [] noDispatch (handleMessage [] noDispatch rpcInit "42")
        (.obj [("type", .str "complete"), ("output", .str "done")])).settled =
      some (.ok "done") ∧
    ¬ ("done" = "42" ++ "\n" ++ "done") := by
  refine ⟨rfl, rfl, rfl, rfl, by decide⟩

/-- No Python type produced by `schemaToPythonType` contains the
character `=`. -/
theorem eq_not_in_pyType : ∀ (s : JSchema), ¬ '=' ∈ (schemaToPythonType s).data
  | .mk ty items anyOf d => by
    rw [schemaToPythonType.eq_def]
    by_cases h1 : ty = some "string"
    · simp [h1]
    · by_cases h2 : ty = some "number"
      · simp [h1, h2]
      · by_cases h3 : ty = some "integer"
        · simp [h1, h2, h3]
        · by_cases h4 : ty = some "boolean"
          · simp [h1, h2, h3, h4]
          · by_cases h5 : ty = some "array"
            · cases items with
              | some it =>
                have hrec := eq_not_in_pyType it
                simp [h1, h2, h3, h4, h5, str_data_append, List.mem_append]
                exact hrec
              | none => simp [h1, h2, h3, h4, h5]
            · by_cases h6 : ty = some "object"
              · simp [h1, h2, h3, h4, h5, h6]
              · by_cases h7 : ty = some "null"
                · simp [h1, h2, h3, h4, h5, h6, h7]
                · simp [h1, h2, h3, h4, h5, h6, h7]

/-- No rendered parameter type contains `=`. -/
theorem eq_not_in_paramPyType (p : String × JSchema) :
    ¬ '=' ∈ (paramPyType p).data :=
  eq_not_in_pyType _

/-- Key classification lemma: when the parameter name does not itself
contain `= None`, the rendered entry contains `= None` exactly when the
generator classified the parameter as optional. -/
theorem occursIn_renderParam (required : List String) (p : String × JSchema)
    (h : occursInS "= None" p.1 = false) :
    occursInS "= None" (renderParam required p) = isOptFlag required p := by
  by_cases hf : isOptFlag required p = true
  · rw [hf]
    unfold renderParam
    rw [if_pos hf]
    unfold occursInS
    simp only [str_data_append, List.append_assoc]
    apply occursIn_append_right
    apply occursIn_append_right
    apply occursIn_append_right
    decide
  · have hf0 : isOptFlag required p = false := by simpa using hf
    rw [hf0]
    unfold renderParam
    rw [if_neg hf]
    unfold occursInS
    simp only [str_data_append, List.append_assoc]
    apply Bool.eq_false_iff.mpr
    intro hocc
    unfold occursInS at h
    rcases occursIn_append_cases hocc with hA | hBC | ⟨s1, t1, hst, hs1, ht1, hsuf, hpre⟩
    · rw [hA] at h
      cases h
    · rcases occursIn_append_cases hBC with hB | hC |
        ⟨s2, t2, hst2, hs2, ht2, hsuf2, hpre2⟩
      · exact absurd hB (by decide)
      · exact eq_not_in_paramPyType p
          (mem_of_occursIn hC (show '=' ∈ ("= None" : String).data by decide))
      · cases s2 with
        | nil => exact hs2 rfl
        | cons a s2' =>
          have ha : some '=' = some a := congrArg List.head? hst2
          cases ha
          have hain : '=' ∈ (": " : String).data :=
            hsuf2.subset (List.mem_cons_self _ _)
          exact absurd hain (by decide)
    · cases t1 with
      | nil => exact ht1 rfl
      | cons c t1' =>
        obtain ⟨u, hu⟩ := hpre
        have hc : some c = some ':' := congrArg List.head? hu
        cases hc
        have hcpat : (':' : Char) ∈ (['=', ' ', 'N', 'o', 'n', 'e'] : List Char) := by
          rw [hst]
          exact List.mem_append_right _ (List.mem_cons_self _ _)
        exact absurd hcpat (by decide)

/-- Under well-behaved names, the string filter used by the generator
partitions the rendered entries exactly like the optionality flag. -/
theorem entries_partition (params : List (String × JSchema))
    (required : List String)
    (h : ∀ p ∈ params, occursInS "= None" p.1 = false) :
    requiredEntriesOf params required =
      (params.filter (fun p => !(isOptFlag required p))).map (renderParam required) ∧
    optionalEntriesOf params required =
      (params.filter (fun p => isOptFlag required p)).map (renderParam required) := by
  constructor
  · unfold requiredEntriesOf paramListOf
    rw [List.filter_map]
    congr 1
    apply List.filter_congr
    intro p hp
    simp only [Function.comp_apply]
    rw [occursIn_renderParam required p (h p hp)]
  · unfold optionalEntriesOf paramListOf
    rw [List.filter_map]
    congr 1
    apply List.filter_congr
    intro p hp
    simp only [Function.comp_apply]
    rw [occursIn_renderParam required p (h p hp)]

/-- C7 (amended): provided no parameter name contains the substring
`= None` (true of all Python identifiers), a rendered entry carries the
`Optional[...] = None` form exactly when the parameter is absent from the
required list or declared nullable; every optional entry has that form;
the generator's string-based partition agrees with the optionality flag,
so in the rendered order every optional parameter follows all required
parameters; and the assembled signature places required entries first,
then the bare `*` separator, then the optional (keyword-only) entries. -/
theorem claimC7_signature (name : String) (params : List (String × JSchema))
    (required : List String)
    (h : ∀ p ∈ params, occursInS "= None" p.1 = false) :
    (∀ p ∈ params,
      (occursInS "= None" (renderParam required p) = true ↔
        (¬ p.1 ∈ required ∨ isOptional p.2 = true))) ∧
    (∀ p ∈ params, isOptFlag required p = true →
      renderParam required p = p.1 ++ ": Optional[" ++ paramPyType p ++ "] = None") ∧
    (∀ p ∈ params, isOptFlag required p = false →
      renderParam required p = p.1 ++ ": " ++ paramPyType p) ∧
    requiredEntriesOf params required =
      (params.filter (fun p => !(isOptFlag required p))).map (renderParam required) ∧
    optionalEntriesOf params required =
      (params.filter (fun p => isOptFlag required p)).map (renderParam required) ∧
    List.Pairwise
      (fun p q => isOptFlag required p = true → isOptFlag required q = true)
      (renderOrderedParams params required) ∧
    buildSignature name params required =
      (if ((params.filter (fun p => !(isOptFlag required p))).map
            (renderParam required)).length > 0 then
        (if ((params.filter (fun p => isOptFlag required p)).map
              (renderParam required)).length > 0 then
          "async def " ++ name ++ "(" ++ "\n    " ++
            String.intercalate ",\n    "
              ((params.filter (fun p => !(isOptFlag required p))).map
                (renderParam required)) ++
            ",\n    *,\n    " ++
            String.intercalate ",\n    "
              ((params.filter (fun p => isOptFlag required p)).map
                (renderParam required))
        else
          "async def " ++ name ++ "(" ++ "\n    " ++
            String.intercalate ",\n    "
              ((params.filter (fun p => !(isOptFlag required p))).map
                (renderParam required)))
      else if ((params.filter (fun p => isOptFlag required p)).map
            (renderParam required)).length > 0 then
        "async def " ++ name ++ "(" ++ "\n    *,\n    " ++
          String.intercalate ",\n    "
            ((params.filter (fun p => isOptFlag required p)).map
              (renderParam required))
      else "async def " ++ name ++ "(") ++ "\n) -> str:" := by
  obtain ⟨hreq, hopt⟩ := entries_partition params required h
  refine ⟨?_, ?_, ?_, hreq, hopt, ?_, ?_⟩
  · intro p hp
    rw [occursIn_renderParam required p (h p hp)]
    simp [isOptFlag]
  · intro p hp hflag
    unfold renderParam
    rw [if_pos hflag]
  · intro p hp hflag
    unfold renderParam
    rw [if_neg (by simp [hflag])]
  · unfold renderOrderedParams
    have hc1 : params.filter
        (fun p => !(occursInS "= None" (renderParam required p))) =
        params.filter (fun p => !(isOptFlag required p)) := by
      apply List.filter_congr
      intro p hp
      rw [occursIn_renderParam required p (h p hp)]
    have hc2 : params.filter
        (fun p => occursInS "= None" (renderParam required p)) =
        params.filter (fun p => isOptFlag required p) := by
      apply List.filter_congr
      intro p hp
      rw [occursIn_renderParam required p (h p hp)]
    rw [hc1, hc2]
    apply List.pairwise_append.mpr
    refine ⟨?_, ?_, ?_⟩
    · apply List.pairwise_of_forall_mem_list
      intro a ha b _ hfa
      have := List.of_mem_filter ha
      simp only [Bool.not_eq_true'] at this
      rw [this] at hfa
      cases hfa
    · apply List.pairwise_of_forall_mem_list
      intro a _ b hb _
      exact List.of_mem_filter hb
    · intro a _ b hb _
      exact List.of_mem_filter hb
  · unfold buildSignature
    rw [hreq, hopt]

/-- C7 witness: a tool with a required string `url` and an
absent-from-required nullable integer `limit` renders `url` first, then
the `*`, then keyword-only `limit: Optional[int] = None`. -/
theorem claimC7_witness :
    buildSignature "fetch" [("url", strSchema), ("limit", intNullable)] ["url"] =
      "async def fetch(\n    url: str,\n    *,\n    limit: Optional[int] = None\n) -> str:" ∧
    (occursInS "= None"
        (renderParam ["url"] ("limit", intNullable)) = true ↔
      (¬ "limit" ∈ ["url"] ∨ isOptional intNullable = true)) ∧
    List.Pairwise
      (fun p q => isOptFlag ["url"] p = true → isOptFlag ["url"] q = true)
      (renderOrderedParams [("url", strSchema), ("limit", intNullable)] ["url"]) := by
  have hnames : ∀ p ∈ [("url", strSchema), ("limit", intNullable)],
      occursInS "= None" p.1 = false := by
    intro p hp
    fin_cases hp <;> decide
  have h := claimC7_signature "fetch" [("url", strSchema), ("limit", intNullable)]
    ["url"] hnames
  refine ⟨?_, ?_, h.2.2.2.2.2.1⟩
  · rw [h.2.2.2.2.2.2]
    rfl
  · exact h.1 ("limit", intNullable) (by simp)

/-- C7 counterexample: a required parameter whose name contains `= None`
(legal as a JSON-schema property name) is misfiled by the generator's
string filter: with parameters `z` (optional) then `a = Noneb` (required),
the rendered order places optional `z` before the required parameter, so
an optional parameter does not follow all required parameters, and the
generated signature puts the required parameter after the `*` with the
optional one before it. -/
theorem claimC7_counterexample :
    isOptFlag ["a = Noneb"] ("a = Noneb", strSchema) = false ∧
    isOptFlag ["a = Noneb"] ("z", strSchema) = true ∧
    renderOrderedParams [("z", strSchema), ("a = Noneb", strSchema)] ["a = Noneb"] =
      [("z", strSchema), ("a = Noneb", strSchema)] ∧
    ¬ List.Pairwise
      (fun p q => isOptFlag ["a = Noneb"] p = true → isOptFlag ["a = Noneb"] q = true)
      (renderOrderedParams [("z", strSchema), ("a = Noneb", strSchema)] ["a = Noneb"]) ∧
    buildSignature "t" [("z", strSchema), ("a = Noneb", strSchema)] ["a = Noneb"] =
      "async def t(\n    *,\n    z: Optional[str] = None,\n    a = Noneb: str\n) -> str:" := by
  refine ⟨rfl, rfl, rfl, ?_, rfl⟩
  intro hp
  have h12 := List.rel_of_pairwise_cons hp (List.mem_singleton.mpr rfl)
  have := h12 rfl
  cases this

end Ptc
